import Mathlib

/-!
Verification of the symbol-map registry (`input/tex/map_handler.ts`) and the
semantics / annotation MathML node kinds (`MmlTree/MmlNodes/semantics.ts`).

The TypeScript code is shallowly embedded:

* `SymbolMap` (an interface whose concrete variants live outside this
  development) is a record of its capability functions `contains`, `lookup`
  and `parse`.  Following the documented contract, `lookup` returns an
  optional value (absent = `none`) and `parse` returns
  `Except E (Option R)`: `Except.error` models a thrown structural parse
  failure, `Except.ok none` models the absent ("not handled here") result,
  and `Except.ok (some r)` a successful parse.
* `Configuration` wraps the ordered array `configuration` of symbol maps;
  its methods are translated loop-for-loop.
* `MapHandler` state is the pair of its two `Map` objects, rendered as
  association lists with insert-or-replace (`assocSet`) and first-match
  lookup (`assocGet`), which is exactly the observable behaviour of a JS
  `Map`.  Methods that in TS print a warning to the console instead return
  the list of emitted warning strings.  Methods that in TS can dereference
  a missing configuration (`this.configurations.get(kind).…`) return an
  `Option`, with `none` marking the would-be runtime TypeError.
-/

/-! ## Association lists, modelling JS `Map` -/

/-- First-match lookup, the behaviour of `Map.prototype.get`. -/
def assocGet {α β : Type} [DecidableEq α] : List (α × β) → α → Option β
  | [], _ => none
  | (k', v) :: rest, k => if k' = k then some v else assocGet rest k

/-- Insert-or-replace, the behaviour of `Map.prototype.set`. -/
def assocSet {α β : Type} [DecidableEq α] : List (α × β) → α → β → List (α × β)
  | [], k, v => [(k, v)]
  | (k', v') :: rest, k, v =>
    if k' = k then (k, v) :: rest else (k', v') :: assocSet rest k v

/-! ## Symbol maps and configurations -/

/-- The `SymbolMap` interface from `symbol_map.ts` (outside this sample):
a named table with the capability set `contains` / `lookup` / `parse`.
`I`, `R`, `E`, `V` are the parse-input, parse-result, error and
lookup-value types. -/
structure SymbolMap (I R E V : Type) where
  name : String
  contains : String → Bool
  lookup : String → Option V
  parse : I → Except E (Option R)

/-- The four configuration categories (`Configurations` in `types.ts`). -/
inductive Configurations where
  | character
  | delimiter
  | mcr
  | environment
deriving DecidableEq

/-- `Configuration`: an ordered list of symbol maps for one category. -/
structure Configuration (I R E V : Type) where
  configuration : List (SymbolMap I R E V)

variable {I R E V : Type}

/-- The loop of `Configuration.applicable`: the first map in the list whose
`contains(symbol)` is true, or `null`. -/
def applicableLoop (symbol : String) :
    List (SymbolMap I R E V) → Option (SymbolMap I R E V)
  | [] => none
  | map :: rest => if map.contains symbol then some map else applicableLoop symbol rest

/-- `Configuration.applicable`: the first map in chain order whose
`contains(symbol)` is true, or `null`. -/
def Configuration.applicable (c : Configuration I R E V) (symbol : String) :
    Option (SymbolMap I R E V) :=
  applicableLoop symbol c.configuration

/-- `Configuration.lookup`: lookup in the first applicable map, or `null`. -/
def Configuration.lookup (c : Configuration I R E V) (symbol : String) :
    Option V :=
  match c.applicable symbol with
  | some map => map.lookup symbol
  | none => none

/-- `Configuration.contains`: whether some map in the chain contains the
symbol. -/
def Configuration.contains (c : Configuration I R E V) (symbol : String) :
    Bool :=
  (c.applicable symbol).isSome

/-- The loop of `Configuration.parse`: try each map in order, returning the
first non-absent result; a thrown error propagates unchanged. -/
def parseLoop (input : I) : List (SymbolMap I R E V) → Except E (Option R)
  | [] => Except.ok none
  | map :: rest =>
    match map.parse input with
    | Except.error e => Except.error e
    | Except.ok (some result) => Except.ok (some result)
    | Except.ok none => parseLoop input rest

/-- `Configuration.parse`: try each map in chain order, returning the first
non-absent result; a thrown error propagates unchanged. -/
def Configuration.parse (c : Configuration I R E V) (input : I) :
    Except E (Option R) :=
  parseLoop input c.configuration

/-- The map store of the handler: map name → symbol map. -/
abbrev MapStore (I R E V : Type) := List (String × SymbolMap I R E V)

/-- `Configuration.add`: resolve `name` in the handler's map store; if
missing, warn and leave the chain unchanged, otherwise push the resolved
map.  Returns the configuration together with the emitted warnings. -/
def Configuration.add (maps : MapStore I R E V) (c : Configuration I R E V)
    (name : String) : Configuration I R E V × List String :=
  match assocGet maps name with
  | none =>
    (c, ["TexParser Warning: Configuration " ++ name ++ " not found! Omitted."])
  | some map => (⟨c.configuration ++ [map]⟩, [])

/-- Folding `Configuration.add` over a list of names. -/
def Configuration.addAll (maps : MapStore I R E V) (c : Configuration I R E V) :
    List String → Configuration I R E V × List String
  | [] => (c, [])
  | n :: rest =>
    let p := Configuration.add maps c n
    let q := Configuration.addAll maps p.1 rest
    (q.1, p.2 ++ q.2)

/-- The `Configuration` constructor: start from an empty chain and `add`
each name in order. -/
def Configuration.ofNames (maps : MapStore I R E V) (names : List String) :
    Configuration I R E V × List String :=
  Configuration.addAll maps ⟨[]⟩ names

/-! ## The MapHandler singleton -/

/-- The state of the `MapHandler` singleton: its `configurations` map and
its authoritative `maps` store. -/
structure MapHandler (I R E V : Type) where
  configurations : List (Configurations × Configuration I R E V)
  maps : MapStore I R E V

/-- The argument of `configure` / `append`: an optional name list per
category (a missing key in the TS object literal is `none`). -/
structure HandlerConfig where
  character : Option (List String)
  delimiter : Option (List String)
  mcr : Option (List String)
  environment : Option (List String)

/-- The field of a `HandlerConfig` for a given category. -/
def HandlerConfig.field (cfg : HandlerConfig) : Configurations → Option (List String)
  | Configurations.character => cfg.character
  | Configurations.delimiter => cfg.delimiter
  | Configurations.mcr => cfg.mcr
  | Configurations.environment => cfg.environment

/-- The empty configuration argument `{}`. -/
def emptyHandlerConfig : HandlerConfig := ⟨none, none, none, none⟩

/-- A configuration argument with a single category present. -/
def HandlerConfig.only (k : Configurations) (names : List String) : HandlerConfig :=
  match k with
  | Configurations.character => ⟨some names, none, none, none⟩
  | Configurations.delimiter => ⟨none, some names, none, none⟩
  | Configurations.mcr => ⟨none, none, some names, none⟩
  | Configurations.environment => ⟨none, none, none, some names⟩

/-- `MapHandler.register`: install / overwrite the map under its name. -/
def MapHandler.register (s : MapHandler I R E V) (map : SymbolMap I R E V) :
    MapHandler I R E V :=
  { s with maps := assocSet s.maps map.name map }

/-- `MapHandler.getMap`: look a symbol map up by name. -/
def MapHandler.getMap (s : MapHandler I R E V) (name : String) :
    Option (SymbolMap I R E V) :=
  assocGet s.maps name

/-- `MapHandler.configure_`: replace the category's configuration with a
fresh one built from `config || []`. -/
def MapHandler.configure_ (s : MapHandler I R E V)
    (config : Option (List String)) (name : Configurations) :
    MapHandler I R E V × List String :=
  let p := Configuration.ofNames s.maps (config.getD [])
  ({ s with configurations := assocSet s.configurations name p.1 }, p.2)

/-- `MapHandler.configure`: `configure_` on each of the four categories, in
source order (delimiter, character, macro, environment). -/
def MapHandler.configure (s : MapHandler I R E V) (config : HandlerConfig) :
    MapHandler I R E V × List String :=
  let p1 := s.configure_ config.delimiter Configurations.delimiter
  let p2 := p1.1.configure_ config.character Configurations.character
  let p3 := p2.1.configure_ config.mcr Configurations.mcr
  let p4 := p3.1.configure_ config.environment Configurations.environment
  (p4.1, p1.2 ++ p2.2 ++ p3.2 ++ p4.2)

/-- The loop body of `MapHandler.append_`: for each name, dereference the
category's configuration (`none` = the TypeError on a missing one) and
`add` the name to it. -/
def MapHandler.appendNames (s : MapHandler I R E V) (names : List String)
    (name : Configurations) : Option (MapHandler I R E V × List String) :=
  match names with
  | [] => some (s, [])
  | n :: rest =>
    match assocGet s.configurations name with
    | none => none
    | some c =>
      let p := Configuration.add s.maps c n
      let s' : MapHandler I R E V :=
        { s with configurations := assocSet s.configurations name p.1 }
      match MapHandler.appendNames s' rest name with
      | none => none
      | some (s'', ws) => some (s'', p.2 ++ ws)

/-- `MapHandler.append_`: a `null` config is a no-op, otherwise `add` each
listed name to the category's existing configuration. -/
def MapHandler.append_ (s : MapHandler I R E V)
    (config : Option (List String)) (name : Configurations) :
    Option (MapHandler I R E V × List String) :=
  match config with
  | none => some (s, [])
  | some names => MapHandler.appendNames s names name

/-- `MapHandler.append`: `append_` on each of the four categories, in source
order. -/
def MapHandler.append (s : MapHandler I R E V) (config : HandlerConfig) :
    Option (MapHandler I R E V × List String) :=
  match s.append_ config.delimiter Configurations.delimiter with
  | none => none
  | some (s1, w1) =>
    match s1.append_ config.character Configurations.character with
    | none => none
    | some (s2, w2) =>
      match s2.append_ config.mcr Configurations.mcr with
      | none => none
      | some (s3, w3) =>
        match s3.append_ config.environment Configurations.environment with
        | none => none
        | some (s4, w4) => some (s4, w1 ++ w2 ++ w3 ++ w4)

/-- `MapHandler.parse`: delegate to the category's configuration; `none`
marks the TypeError on a missing configuration. -/
def MapHandler.parse (s : MapHandler I R E V) (kind : Configurations)
    (input : I) : Option (Except E (Option R)) :=
  (assocGet s.configurations kind).map (fun c => c.parse input)

/-- `MapHandler.lookup`: delegate to the category's configuration. -/
def MapHandler.lookup (s : MapHandler I R E V) (kind : Configurations)
    (symbol : String) : Option (Option V) :=
  (assocGet s.configurations kind).map (fun c => c.lookup symbol)

/-- `MapHandler.contains`: delegate to the category's configuration. -/
def MapHandler.contains (s : MapHandler I R E V) (kind : Configurations)
    (symbol : String) : Option Bool :=
  (assocGet s.configurations kind).map (fun c => c.contains symbol)

/-- The private `MapHandler` constructor: empty maps, then
`this.configure({})`. -/
def MapHandler.initial : MapHandler I R E V :=
  (MapHandler.configure ⟨[], []⟩ emptyHandlerConfig).1

/-- The public mutating operations on the singleton, for lifetime
invariants. -/
inductive HandlerOp (I R E V : Type) where
  | reg (map : SymbolMap I R E V)
  | conf (config : HandlerConfig)
  | app (config : HandlerConfig)

/-- One public mutating call; `none` marks a TypeError inside `append`. -/
def HandlerOp.step (s : MapHandler I R E V) :
    HandlerOp I R E V → Option (MapHandler I R E V)
  | HandlerOp.reg map => some (s.register map)
  | HandlerOp.conf config => some (s.configure config).1
  | HandlerOp.app config => (s.append config).map Prod.fst

/-- Run a sequence of public mutating calls from a state. -/
def HandlerOp.run (s : MapHandler I R E V) :
    List (HandlerOp I R E V) → Option (MapHandler I R E V)
  | [] => some s
  | op :: rest =>
    match HandlerOp.step s op with
    | none => none
    | some s' => HandlerOp.run s' rest

/-- All four categories have a configuration present. -/
def MapHandler.allConfigured (s : MapHandler I R E V) : Prop :=
  ∀ k : Configurations, (assocGet s.configurations k).isSome

/-! ## The MathML node kinds of `MmlNodes/semantics.ts` -/

/-- A property value of a node's property list (`null`, boolean or string
in the sample's defaults). -/
inductive PropValue where
  | null
  | bool (b : Bool)
  | str (s : String)
deriving DecidableEq

/-- A `PropertyList`: a JS object used as a string-keyed dictionary. -/
abbrev PropertyList := List (String × PropValue)

/-- Reading a key of a property list. -/
def getProp (l : PropertyList) (k : String) : Option PropValue :=
  assocGet l k

/-- Assigning a key of a property list. -/
def setProp (l : PropertyList) (k : String) (v : PropValue) : PropertyList :=
  assocSet l k v

/-- JS object spread `{...base, k1: v1, ...}`: later keys override. -/
def overlayProps (base : PropertyList) (upd : PropertyList) : PropertyList :=
  upd.foldl (fun acc p => setProp acc p.1 p.2) base

/-- `MmlSemantics.defaults`: `AMmlBaseNode.defaults` (outside this sample,
passed in as `base`) overlaid with the class's own declared defaults. -/
def MmlSemantics.defaults (base : PropertyList) : PropertyList :=
  overlayProps base [("definitionUrl", PropValue.null), ("encoding", PropValue.null)]

/-- `MmlSemantics`'s kind tag getter. -/
def MmlSemantics.kind : String := "semantics"

/-- `MmlSemantics`'s overridden `notParent` getter. -/
def MmlSemantics.notParent : Bool := true

/-- `MmlAnnotationXML.defaults`: `AMmlNode.defaults` (outside this sample,
passed in as `base`) overlaid with the class's own declared defaults. -/
def MmlAnnotationXML.defaults (base : PropertyList) : PropertyList :=
  overlayProps base
    [("definitionUrl", PropValue.null), ("encoding", PropValue.null),
     ("cd", PropValue.str "mathmlkeys"), ("name", PropValue.str ""),
     ("src", PropValue.null)]

/-- `MmlAnnotationXML`'s kind tag getter. -/
def MmlAnnotationXML.kind : String := "annotation-xml"

/-- `MmlAnnotationXML`'s overridden `linebreakContainer` getter. -/
def MmlAnnotationXML.linebreakContainer : Bool := true

/-- The annotation-leaf class `MmlAnnotation` (embedded here under the
name `MmlAnnotationNode`) inherits `static defaults` from
`MmlAnnotationXML` unchanged (it declares no `defaults` of its own). -/
def MmlAnnotationNode.defaults (base : PropertyList) : PropertyList :=
  MmlAnnotationXML.defaults base

/-- A constructed node instance: its per-instance mutable property bag. -/
structure MmlNodeInst where
  properties : PropertyList

/-- Modelled from the spec: the node construction contract of the base node
classes (`MmlNode.ts`, outside this sample) — instantiating a node copies
the kind's resolved default table into a fresh per-instance property bag;
`MmlAnnotation` additionally carries its declared instance property
`isChars: true`. -/
def mkAnnotationNode (base : PropertyList) : MmlNodeInst :=
  ⟨overlayProps (MmlAnnotationNode.defaults base) [("isChars", PropValue.bool true)]⟩

/-- Mutating one property of an instance's bag. -/
def MmlNodeInst.setProperty (n : MmlNodeInst) (k : String) (v : PropValue) :
    MmlNodeInst :=
  ⟨setProp n.properties k v⟩

/-- A world of two constructed instances, to express that mutation of one
instance's bag is invisible to the other instance. -/
structure NodeWorld where
  inst1 : MmlNodeInst
  inst2 : MmlNodeInst

/-- Mutate a property of the first instance only. -/
def NodeWorld.setOnFirst (w : NodeWorld) (k : String) (v : PropValue) :
    NodeWorld :=
  ⟨w.inst1.setProperty k v, w.inst2⟩

/-! ## Concrete instances used by the witnesses -/

/-- A map that contains nothing and parses nothing. -/
def mInert : SymbolMap Nat Nat Nat Nat :=
  ⟨"inert", fun _ => false, fun _ => none, fun _ => Except.ok none⟩

/-- A map that contains `"s"` but whose lookup and parse are absent. -/
def mAbsent : SymbolMap Nat Nat Nat Nat :=
  ⟨"absent", fun s => s = "s", fun _ => none, fun _ => Except.ok none⟩

/-- A map that contains `"s"`, looks it up to `5` and parses to `3`. -/
def mValue : SymbolMap Nat Nat Nat Nat :=
  ⟨"value", fun s => s = "s",
   fun s => if s = "s" then some 5 else none,
   fun _ => Except.ok (some 3)⟩

/-- A map that contains `"s"` and throws error `7` on every parse. -/
def mThrow : SymbolMap Nat Nat Nat Nat :=
  ⟨"throw", fun s => s = "s", fun _ => none, fun _ => Except.error 7⟩

/-- A second value map registered under the same name as `mValue`. -/
def mValue2 : SymbolMap Nat Nat Nat Nat :=
  ⟨"value", fun s => s = "s",
   fun s => if s = "s" then some 8 else none,
   fun _ => Except.ok (some 9)⟩

/-! ## Helper lemmas on association lists -/

theorem assocGet_assocSet_self {α β : Type} [DecidableEq α]
    (l : List (α × β)) (k : α) (v : β) :
    assocGet (assocSet l k v) k = some v := by
  induction l with
  | nil => simp [assocSet, assocGet]
  | cons p rest ih =>
    obtain ⟨k', v'⟩ := p
    by_cases h : k' = k <;> simp [assocSet, assocGet, h, ih]

theorem assocGet_assocSet_ne {α β : Type} [DecidableEq α]
    (l : List (α × β)) (k k' : α) (v : β) (h : k ≠ k') :
    assocGet (assocSet l k v) k' = assocGet l k' := by
  induction l with
  | nil => simp [assocSet, assocGet, h]
  | cons p rest ih =>
    obtain ⟨a, b⟩ := p
    by_cases h1 : a = k <;> by_cases h2 : a = k' <;>
      simp_all [assocSet, assocGet]

theorem assocSet_eq_self {α β : Type} [DecidableEq α]
    (l : List (α × β)) (k : α) (v : β) (h : assocGet l k = some v) :
    assocSet l k v = l := by
  induction l with
  | nil => simp [assocGet] at h
  | cons p rest ih =>
    obtain ⟨a, b⟩ := p
    by_cases h1 : a = k
    · subst h1
      simp [assocGet] at h
      simp [assocSet, h]
    · simp [assocGet, h1] at h
      simp [assocSet, h1, ih h]

/-! ## Helper lemmas on configuration chains -/

theorem applicableLoop_append_not_contains {I R E V : Type} (S : String)
    (pre rest : List (SymbolMap I R E V))
    (h : ∀ m ∈ pre, m.contains S = false) :
    applicableLoop S (pre ++ rest) = applicableLoop S rest := by
  induction pre with
  | nil => rfl
  | cons m pre ih =>
    have hm := h m (List.mem_cons_self m pre)
    simp only [List.cons_append, applicableLoop, hm, Bool.false_eq_true,
      if_false]
    exact ih (fun m' hm' => h m' (List.mem_cons_of_mem m hm'))

theorem applicableLoop_cons_contains {I R E V : Type} (S : String)
    (m : SymbolMap I R E V) (rest : List (SymbolMap I R E V))
    (h : m.contains S = true) :
    applicableLoop S (m :: rest) = some m := by
  simp [applicableLoop, h]

theorem applicableLoop_eq_none {I R E V : Type} (S : String)
    (l : List (SymbolMap I R E V)) (h : ∀ m ∈ l, m.contains S = false) :
    applicableLoop S l = none := by
  have := applicableLoop_append_not_contains S l [] h
  simpa [applicableLoop] using this

theorem parseLoop_append_absent {I R E V : Type} (input : I)
    (pre rest : List (SymbolMap I R E V))
    (h : ∀ m ∈ pre, m.parse input = Except.ok none) :
    parseLoop input (pre ++ rest) = parseLoop input rest := by
  induction pre with
  | nil => rfl
  | cons m pre ih =>
    have hm := h m (List.mem_cons_self m pre)
    simp only [List.cons_append, parseLoop, hm]
    exact ih (fun m' hm' => h m' (List.mem_cons_of_mem m hm'))

theorem parseLoop_eq_ok_none_iff {I R E V : Type} (input : I)
    (l : List (SymbolMap I R E V)) :
    parseLoop input l = Except.ok none ↔
      ∀ m ∈ l, m.parse input = Except.ok none := by
  induction l with
  | nil => simp [parseLoop]
  | cons m rest ih =>
    cases hm : m.parse input with
    | error e => simp [parseLoop, hm, List.forall_mem_cons]
    | ok o =>
      cases o with
      | none => simp [parseLoop, hm, ih, List.forall_mem_cons]
      | some r => simp [parseLoop, hm, List.forall_mem_cons]

theorem Configuration.addAll_configuration {I R E V : Type}
    (maps : MapStore I R E V) (c : Configuration I R E V)
    (names : List String) :
    (Configuration.addAll maps c names).1.configuration =
      c.configuration ++ names.filterMap (fun n => assocGet maps n) := by
  induction names generalizing c with
  | nil => simp [Configuration.addAll]
  | cons n rest ih =>
    cases hm : assocGet maps n with
    | none => simp [Configuration.addAll, Configuration.add, hm, ih]
    | some m => simp [Configuration.addAll, Configuration.add, hm, ih]

theorem Configuration.ofNames_configuration {I R E V : Type}
    (maps : MapStore I R E V) (names : List String) :
    (Configuration.ofNames maps names).1.configuration =
      names.filterMap (fun n => assocGet maps n) := by
  simpa using Configuration.addAll_configuration maps ⟨[]⟩ names

/-! ## Helper lemmas on the MapHandler -/

theorem assocGet_configure_list {I R E V : Type}
    (l : List (Configurations × Configuration I R E V))
    (cd cc cm ce : Configuration I R E V) (k : Configurations) :
    assocGet (assocSet (assocSet (assocSet (assocSet l
        Configurations.delimiter cd) Configurations.character cc)
        Configurations.mcr cm) Configurations.environment ce) k =
      some (match k with
        | Configurations.delimiter => cd
        | Configurations.character => cc
        | Configurations.mcr => cm
        | Configurations.environment => ce) := by
  cases k <;>
    (repeat
      first
      | rw [assocGet_assocSet_self]
      | rw [assocGet_assocSet_ne _ _ _ _ (by decide)])

theorem MapHandler.configure_maps {I R E V : Type} (s : MapHandler I R E V)
    (cfg : HandlerConfig) : ((s.configure cfg).1).maps = s.maps := rfl

theorem MapHandler.configure_get {I R E V : Type} (s : MapHandler I R E V)
    (cfg : HandlerConfig) (k : Configurations) :
    assocGet ((s.configure cfg).1).configurations k =
      some (Configuration.ofNames s.maps ((cfg.field k).getD [])).1 := by
  cases k <;>
    simp [MapHandler.configure, MapHandler.configure_, HandlerConfig.field,
      assocGet_configure_list]

theorem MapHandler.configure_allConfigured {I R E V : Type}
    (s : MapHandler I R E V) (cfg : HandlerConfig) :
    ((s.configure cfg).1).allConfigured := by
  intro k
  rw [MapHandler.configure_get]
  rfl

theorem MapHandler.appendNames_allConfigured {I R E V : Type}
    (names : List String) (s : MapHandler I R E V) (name : Configurations)
    (h : s.allConfigured) :
    ∃ p, MapHandler.appendNames s names name = some p ∧
      p.1.allConfigured := by
  induction names generalizing s with
  | nil => exact ⟨(s, []), rfl, h⟩
  | cons n rest ih =>
    obtain ⟨c, hc⟩ := Option.isSome_iff_exists.mp (h name)
    have hs' : (MapHandler.mk
        (assocSet s.configurations name (Configuration.add s.maps c n).1)
        s.maps : MapHandler I R E V).allConfigured := by
      intro k
      by_cases hk : name = k
      · subst hk
        rw [assocGet_assocSet_self]
        rfl
      · rw [assocGet_assocSet_ne _ _ _ _ hk]
        exact h k
    obtain ⟨⟨s'', ws⟩, hp, hpc⟩ := ih _ hs'
    exact ⟨(s'', (Configuration.add s.maps c n).2 ++ ws),
      by simp [MapHandler.appendNames, hc, hp], hpc⟩

theorem MapHandler.appendU_allConfigured {I R E V : Type}
    (s : MapHandler I R E V) (config : Option (List String))
    (name : Configurations) (h : s.allConfigured) :
    ∃ p, s.append_ config name = some p ∧ p.1.allConfigured := by
  cases config with
  | none => exact ⟨(s, []), rfl, h⟩
  | some names => exact MapHandler.appendNames_allConfigured names s name h

theorem MapHandler.append_allConfigured {I R E V : Type}
    (s : MapHandler I R E V) (config : HandlerConfig)
    (h : s.allConfigured) :
    ∃ p, s.append config = some p ∧ p.1.allConfigured := by
  obtain ⟨⟨s1, w1⟩, h1, hc1⟩ :=
    MapHandler.appendU_allConfigured s config.delimiter
      Configurations.delimiter h
  obtain ⟨⟨s2, w2⟩, h2, hc2⟩ :=
    MapHandler.appendU_allConfigured s1 config.character
      Configurations.character hc1
  obtain ⟨⟨s3, w3⟩, h3, hc3⟩ :=
    MapHandler.appendU_allConfigured s2 config.mcr Configurations.mcr hc2
  obtain ⟨⟨s4, w4⟩, h4, hc4⟩ :=
    MapHandler.appendU_allConfigured s3 config.environment
      Configurations.environment hc3
  exact ⟨(s4, w1 ++ w2 ++ w3 ++ w4),
    by simp [MapHandler.append, h1, h2, h3, h4], hc4⟩

theorem HandlerOp.step_allConfigured {I R E V : Type}
    (s : MapHandler I R E V) (op : HandlerOp I R E V)
    (h : s.allConfigured) :
    ∃ s', HandlerOp.step s op = some s' ∧ s'.allConfigured := by
  cases op with
  | reg m => exact ⟨s.register m, rfl, h⟩
  | conf c => exact ⟨_, rfl, MapHandler.configure_allConfigured s c⟩
  | app c =>
    obtain ⟨p, hp, hc⟩ := MapHandler.append_allConfigured s c h
    exact ⟨p.1, by simp [HandlerOp.step, hp], hc⟩

theorem HandlerOp.run_allConfigured {I R E V : Type}
    (ops : List (HandlerOp I R E V)) (s : MapHandler I R E V)
    (h : s.allConfigured) :
    ∃ s', HandlerOp.run s ops = some s' ∧ s'.allConfigured := by
  induction ops generalizing s with
  | nil => exact ⟨s, rfl, h⟩
  | cons op rest ih =>
    obtain ⟨s', hs', hc'⟩ := HandlerOp.step_allConfigured s op h
    obtain ⟨s'', hs'', hc''⟩ := ih s' hc'
    exact ⟨s'', by simp [HandlerOp.run, hs', hs''], hc''⟩

theorem MapHandler.initial_allConfigured {I R E V : Type} :
    (MapHandler.initial : MapHandler I R E V).allConfigured :=
  MapHandler.configure_allConfigured _ _

/-! ## The claims -/

/-- C1: `Configuration.lookup` returns the `lookup` of the first map in
chain order whose `contains` is true — regardless of everything after that
map, even when that map's own lookup is absent — and returns absent when no
map in the chain contains the symbol. -/
theorem C1_lookup_first_declared {I R E V : Type} (S : String) :
    (∀ (pre post : List (SymbolMap I R E V)) (m : SymbolMap I R E V),
      (∀ m' ∈ pre, m'.contains S = false) → m.contains S = true →
      Configuration.lookup ⟨pre ++ m :: post⟩ S = m.lookup S)
    ∧ (∀ chain : List (SymbolMap I R E V),
      (∀ m' ∈ chain, m'.contains S = false) →
      Configuration.lookup ⟨chain⟩ S = none) := by
  constructor
  · intro pre post m hpre hm
    simp only [Configuration.lookup, Configuration.applicable]
    rw [applicableLoop_append_not_contains S pre _ hpre,
      applicableLoop_cons_contains S m post hm]
  · intro chain h
    simp only [Configuration.lookup, Configuration.applicable]
    rw [applicableLoop_eq_none S chain h]

/-- Witness for C1: in the chain `[mInert, mAbsent, mValue]` the first map
containing `"s"` is `mAbsent`, so lookup is its (absent) lookup even though
`mValue` would answer; a chain with no containing map looks up to absent. -/
theorem C1_lookup_first_declared_witness :
    Configuration.lookup ⟨[mInert, mAbsent, mValue]⟩ "s" = none
    ∧ Configuration.lookup (⟨[mInert]⟩ : Configuration Nat Nat Nat Nat) "s"
        = none := by
  constructor
  · exact ((C1_lookup_first_declared "s").1 [mInert] [mValue] mAbsent
      (by decide) (by decide)).trans rfl
  · exact (C1_lookup_first_declared "s").2 [mInert] (by decide)

/-- C2: `Configuration.parse` returns the first non-absent result in chain
order, is absent exactly when every map's parse is absent, and in the
two-map chain where the first map contains the symbol but parses to absent,
the second map's result is returned. -/
theorem C2_parse_first_capable {I R E V : Type} (input : I) :
    (∀ (pre post : List (SymbolMap I R E V)) (m : SymbolMap I R E V) (r : R),
      (∀ m' ∈ pre, m'.parse input = Except.ok none) →
      m.parse input = Except.ok (some r) →
      Configuration.parse ⟨pre ++ m :: post⟩ input = Except.ok (some r))
    ∧ (∀ chain : List (SymbolMap I R E V),
      Configuration.parse ⟨chain⟩ input = Except.ok none ↔
        ∀ m ∈ chain, m.parse input = Except.ok none)
    ∧ (∀ (M1 M2 : SymbolMap I R E V) (S : String) (r : R),
      M1.contains S = true → M2.contains S = true →
      M1.parse input = Except.ok none →
      M2.parse input = Except.ok (some r) →
      Configuration.parse ⟨[M1, M2]⟩ input = Except.ok (some r)) := by
  refine ⟨?_, ?_, ?_⟩
  · intro pre post m r hpre hm
    simp only [Configuration.parse]
    rw [parseLoop_append_absent input pre _ hpre]
    simp [parseLoop, hm]
  · intro chain
    exact parseLoop_eq_ok_none_iff input chain
  · intro M1 M2 S r _ _ h1 h2
    simp [Configuration.parse, parseLoop, h1, h2]

/-- Witness for C2: `[mAbsent, mValue]` (both contain `"s"`, the first
parses to absent) parses to `mValue`'s result; an all-absent chain parses
to absent. -/
theorem C2_parse_first_capable_witness :
    Configuration.parse ⟨[mAbsent, mValue]⟩ 0 = Except.ok (some 3)
    ∧ Configuration.parse
        (⟨[mInert, mAbsent]⟩ : Configuration Nat Nat Nat Nat) 0
        = Except.ok none := by
  constructor
  · exact (C2_parse_first_capable 0).2.2 mAbsent mValue "s" 3
      (by decide) (by decide) rfl rfl
  · refine ((C2_parse_first_capable 0).2.1 [mInert, mAbsent]).mpr ?_
    intro m hm
    rw [List.mem_cons, List.mem_singleton] at hm
    rcases hm with rfl | rfl <;> rfl

/-- C3: after re-registering a map under an existing name, a later
`Configuration.add` of that name resolves to the new instance, while a
chain entry added before the re-registration still holds the previously
stored instance. -/
theorem C3_reregister_not_retroactive {I R E V : Type}
    (s : MapHandler I R E V) (mOld mNew : SymbolMap I R E V)
    (c : Configuration I R E V) (h : mNew.name = mOld.name) :
    MapHandler.getMap ((s.register mOld).register mNew) mOld.name = some mNew
    ∧ (Configuration.add (s.register mOld).maps c mOld.name).1.configuration
        = c.configuration ++ [mOld]
    ∧ (Configuration.add ((s.register mOld).register mNew).maps c
        mOld.name).1.configuration = c.configuration ++ [mNew] := by
  refine ⟨?_, ?_, ?_⟩
  · simp only [MapHandler.getMap, MapHandler.register, h]
    rw [assocGet_assocSet_self]
  · simp only [Configuration.add, MapHandler.register]
    rw [assocGet_assocSet_self]
  · simp only [Configuration.add, MapHandler.register, h]
    rw [assocGet_assocSet_self]

/-- Witness for C3: registering `mValue` then `mValue2` (same name
`"value"`): an earlier add resolved `mValue`, a later add resolves
`mValue2`. -/
theorem C3_reregister_not_retroactive_witness :
    MapHandler.getMap
      (((⟨[], []⟩ : MapHandler Nat Nat Nat Nat).register mValue).register
        mValue2) "value" = some mValue2
    ∧ (Configuration.add
        ((⟨[], []⟩ : MapHandler Nat Nat Nat Nat).register mValue).maps
        ⟨[]⟩ "value").1.configuration = [mValue]
    ∧ (Configuration.add
        (((⟨[], []⟩ : MapHandler Nat Nat Nat Nat).register mValue).register
          mValue2).maps ⟨[]⟩ "value").1.configuration = [mValue2] := by
  obtain ⟨h1, h2, h3⟩ := C3_reregister_not_retroactive
    (⟨[], []⟩ : MapHandler Nat Nat Nat Nat) mValue mValue2 ⟨[]⟩ rfl
  exact ⟨h1, h2.trans rfl, h3.trans rfl⟩

/-- C4: appending an unregistered name to a category leaves the whole
handler state (in particular that category's chain) unchanged, emits
exactly one warning, and does not crash. -/
theorem C4_append_missing_name {I R E V : Type} (s : MapHandler I R E V)
    (k : Configurations) (N : String)
    (hN : MapHandler.getMap s N = none)
    (hk : (assocGet s.configurations k).isSome = true) :
    s.append (HandlerConfig.only k [N]) =
      some (s,
        ["TexParser Warning: Configuration " ++ N ++ " not found! Omitted."]) := by
  simp only [MapHandler.getMap] at hN
  obtain ⟨c, hc⟩ := Option.isSome_iff_exists.mp hk
  have hset : assocSet s.configurations k c = s.configurations :=
    assocSet_eq_self _ _ _ hc
  cases k <;>
    simp [MapHandler.append, MapHandler.append_, MapHandler.appendNames,
      HandlerConfig.only, Configuration.add, hc, hN, hset]

/-- Witness for C4: appending the unregistered `"foo"` to the macro chain
of the freshly constructed handler returns the same state plus one
warning. -/
theorem C4_append_missing_name_witness :
    (MapHandler.initial : MapHandler Nat Nat Nat Nat).append
      (HandlerConfig.only Configurations.mcr ["foo"]) =
      some (MapHandler.initial,
        ["TexParser Warning: Configuration foo not found! Omitted."]) := by
  have h := C4_append_missing_name
    (MapHandler.initial : MapHandler Nat Nat Nat Nat)
    Configurations.mcr "foo" rfl rfl
  exact h.trans rfl

/-- C5: `configure` discards the prior configuration of every category and
builds a fresh chain from the names given in the second call alone; a
category missing from the argument gets a fresh empty chain. -/
theorem C5_configure_replaces {I R E V : Type} (s : MapHandler I R E V)
    (cfg1 cfg2 : HandlerConfig) (k : Configurations) :
    assocGet (((s.configure cfg1).1.configure cfg2).1).configurations k =
      some (Configuration.ofNames s.maps ((cfg2.field k).getD [])).1
    ∧ (cfg2.field k = none →
      assocGet (((s.configure cfg1).1.configure cfg2).1).configurations k =
        some (⟨[]⟩ : Configuration I R E V)) := by
  have hmaps : ((s.configure cfg1).1).maps = s.maps := rfl
  constructor
  · rw [MapHandler.configure_get, hmaps]
  · intro hnone
    rw [MapHandler.configure_get, hmaps, hnone]
    rfl

/-- Witness for C5: configuring the character chain to
`["value", "value"]` and then to `["value"]` leaves exactly the chain
`[mValue]`; the macro category, absent from both calls, is a fresh empty
chain. -/
theorem C5_configure_replaces_witness :
    assocGet (((((⟨[], []⟩ : MapHandler Nat Nat Nat Nat).register
        mValue).configure
        (HandlerConfig.only Configurations.character
          ["value", "value"])).1.configure
        (HandlerConfig.only Configurations.character
          ["value"])).1).configurations Configurations.character =
      some ⟨[mValue]⟩
    ∧ assocGet (((((⟨[], []⟩ : MapHandler Nat Nat Nat Nat).register
        mValue).configure
        (HandlerConfig.only Configurations.character
          ["value", "value"])).1.configure
        (HandlerConfig.only Configurations.character
          ["value"])).1).configurations Configurations.mcr =
      some ⟨[]⟩ := by
  constructor
  · exact ((C5_configure_replaces
      ((⟨[], []⟩ : MapHandler Nat Nat Nat Nat).register mValue)
      (HandlerConfig.only Configurations.character ["value", "value"])
      (HandlerConfig.only Configurations.character ["value"])
      Configurations.character).1).trans rfl
  · exact (C5_configure_replaces
      ((⟨[], []⟩ : MapHandler Nat Nat Nat Nat).register mValue)
      (HandlerConfig.only Configurations.character ["value", "value"])
      (HandlerConfig.only Configurations.character ["value"])
      Configurations.mcr).2 rfl

/-- C6: a structural failure thrown by a member map propagates unchanged
through `Configuration.parse`, an all-absent chain yields absent (never an
error), and `MapHandler.parse` passes the configuration's outcome through
unchanged. -/
theorem C6_failure_absent_orthogonal {I R E V : Type} (input : I) :
    (∀ (pre post : List (SymbolMap I R E V)) (m : SymbolMap I R E V) (e : E),
      (∀ m' ∈ pre, m'.parse input = Except.ok none) →
      m.parse input = Except.error e →
      Configuration.parse ⟨pre ++ m :: post⟩ input = Except.error e)
    ∧ (∀ chain : List (SymbolMap I R E V),
      (∀ m' ∈ chain, m'.parse input = Except.ok none) →
      Configuration.parse ⟨chain⟩ input = Except.ok none)
    ∧ (∀ (s : MapHandler I R E V) (kind : Configurations)
        (c : Configuration I R E V),
      assocGet s.configurations kind = some c →
      s.parse kind input = some (c.parse input)) := by
  refine ⟨?_, ?_, ?_⟩
  · intro pre post m e hpre hm
    simp only [Configuration.parse]
    rw [parseLoop_append_absent input pre _ hpre]
    simp [parseLoop, hm]
  · intro chain h
    exact (parseLoop_eq_ok_none_iff input chain).mpr h
  · intro s kind c hc
    simp [MapHandler.parse, hc]

/-- Witness for C6: the chain `[mAbsent, mThrow]` propagates the thrown
error `7`, the chain `[mAbsent, mInert]` is absent, and the handler layer
returns the chain's error unchanged. -/
theorem C6_failure_absent_orthogonal_witness :
    Configuration.parse ⟨[mAbsent, mThrow]⟩ 0 = Except.error 7
    ∧ Configuration.parse
        (⟨[mAbsent, mInert]⟩ : Configuration Nat Nat Nat Nat) 0
        = Except.ok none
    ∧ MapHandler.parse
        (⟨[(Configurations.mcr, ⟨[mAbsent, mThrow]⟩)], []⟩ :
          MapHandler Nat Nat Nat Nat) Configurations.mcr 0 =
        some (Except.error 7) := by
  have habs : ∀ m' ∈ [mAbsent], m'.parse 0 = Except.ok none := by
    intro m' hm'
    rw [List.mem_singleton] at hm'
    subst hm'
    rfl
  have h1 := (C6_failure_absent_orthogonal 0).1 [mAbsent] [] mThrow 7
    habs rfl
  refine ⟨h1, ?_, ?_⟩
  · refine (C6_failure_absent_orthogonal 0).2.1 [mAbsent, mInert] ?_
    intro m hm
    rw [List.mem_cons, List.mem_singleton] at hm
    rcases hm with rfl | rfl <;> rfl
  · have h3 := (C6_failure_absent_orthogonal 0).2.2
      (⟨[(Configurations.mcr, ⟨[mAbsent, mThrow]⟩)], []⟩ :
        MapHandler Nat Nat Nat Nat) Configurations.mcr
      ⟨[mAbsent, mThrow]⟩ rfl
    exact h3.trans (congrArg some h1)

/-- C7: a configuration chain preserves exactly the order in which map
names were added (resolved against the store, missing names dropped), a
name added twice yields two entries with no deduplication, and `parse`
consults both entries of a two-entry chain in order. -/
theorem C7_order_preserved_no_dedup {I R E V : Type} :
    (∀ (maps : MapStore I R E V) (names : List String),
      (Configuration.ofNames maps names).1.configuration =
        names.filterMap (fun n => assocGet maps n))
    ∧ (∀ (maps : MapStore I R E V) (n : String) (m : SymbolMap I R E V),
      assocGet maps n = some m →
      (Configuration.ofNames maps [n, n]).1.configuration = [m, m])
    ∧ (∀ (m1 m2 : SymbolMap I R E V) (input : I),
      Configuration.parse ⟨[m1, m2]⟩ input =
        match m1.parse input with
        | Except.error e => Except.error e
        | Except.ok (some r) => Except.ok (some r)
        | Except.ok none => m2.parse input) := by
  refine ⟨?_, ?_, ?_⟩
  · intro maps names
    exact Configuration.ofNames_configuration maps names
  · intro maps n m h
    rw [Configuration.ofNames_configuration]
    simp [h]
  · intro m1 m2 input
    cases h1 : m1.parse input with
    | error e => simp [Configuration.parse, parseLoop, h1]
    | ok o =>
      cases o with
      | some r => simp [Configuration.parse, parseLoop, h1]
      | none =>
        cases h2 : m2.parse input with
        | error e => simp [Configuration.parse, parseLoop, h1, h2]
        | ok o2 => cases o2 <;> simp [Configuration.parse, parseLoop, h1, h2]

/-- Witness for C7: building a chain from `["value", "nope", "value"]`
against a store holding only `"value"` yields the two-entry chain
`[mValue, mValue]` in order, and parsing `[mAbsent, mValue]` consults the
second entry after the first is absent. -/
theorem C7_order_preserved_no_dedup_witness :
    (Configuration.ofNames [("value", mValue)]
      ["value", "nope", "value"]).1.configuration = [mValue, mValue]
    ∧ Configuration.parse
        (⟨[mAbsent, mValue]⟩ : Configuration Nat Nat Nat Nat) 0 =
        Except.ok (some 3) := by
  constructor
  · exact (C7_order_preserved_no_dedup.1 [("value", mValue)]
      ["value", "nope", "value"]).trans rfl
  · exact (C7_order_preserved_no_dedup.2.2 mAbsent mValue 0).trans rfl

/-- C8: an `MmlAnnotation` instance's property bag carries every supertype
default (`definitionUrl`/`encoding`/`src` null, `cd` `"mathmlkeys"`,
`name` `""`) plus its own `isChars: true`, whatever the inherited base
defaults were; and mutating one instance leaves a sibling instance's bag
and the kind's static defaults untouched. -/
theorem C8_annotation_instance_bag (base : PropertyList) :
    (getProp (mkAnnotationNode base).properties "definitionUrl" =
        some PropValue.null
      ∧ getProp (mkAnnotationNode base).properties "encoding" =
        some PropValue.null
      ∧ getProp (mkAnnotationNode base).properties "cd" =
        some (PropValue.str "mathmlkeys")
      ∧ getProp (mkAnnotationNode base).properties "name" =
        some (PropValue.str "")
      ∧ getProp (mkAnnotationNode base).properties "src" =
        some PropValue.null
      ∧ getProp (mkAnnotationNode base).properties "isChars" =
        some (PropValue.bool true))
    ∧ (∀ (k : String) (v : PropValue),
      (NodeWorld.setOnFirst
          ⟨mkAnnotationNode base, mkAnnotationNode base⟩ k v).inst2.properties
        = (mkAnnotationNode base).properties
      ∧ MmlAnnotationNode.defaults base = MmlAnnotationXML.defaults base) := by
  have hprops : (mkAnnotationNode base).properties =
      assocSet (assocSet (assocSet (assocSet (assocSet (assocSet base
        "definitionUrl" PropValue.null) "encoding" PropValue.null)
        "cd" (PropValue.str "mathmlkeys")) "name" (PropValue.str ""))
        "src" PropValue.null) "isChars" (PropValue.bool true) := rfl
  refine ⟨⟨?_, ?_, ?_, ?_, ?_, ?_⟩, fun k v => ⟨rfl, rfl⟩⟩ <;>
    · simp only [getProp, hprops]
      repeat
        first
        | rw [assocGet_assocSet_self]
        | rw [assocGet_assocSet_ne _ _ _ _ (by decide)]

/-- C9: `MmlSemantics` reports `notParent = true` and `MmlAnnotationXML`
reports `linebreakContainer = true`. -/
theorem C9_semantics_flags :
    MmlSemantics.notParent = true ∧ MmlAnnotationXML.linebreakContainer = true :=
  ⟨rfl, rfl⟩

/-- C10: starting from the constructed handler (whose constructor runs
`configure({})`), every sequence of public mutating calls succeeds and
leaves all four categories mapped to a configuration, so `parse`, `lookup`
and `contains` never dereference a missing configuration. -/
theorem C10_all_categories_configured {I R E V : Type}
    (ops : List (HandlerOp I R E V)) :
    ∃ s, HandlerOp.run MapHandler.initial ops = some s ∧
      ∀ k : Configurations,
        (assocGet s.configurations k).isSome = true
        ∧ (∀ input : I, (s.parse k input).isSome = true)
        ∧ (∀ symbol : String, (s.lookup k symbol).isSome = true
            ∧ (s.contains k symbol).isSome = true) := by
  obtain ⟨s, hs, hc⟩ := HandlerOp.run_allConfigured ops MapHandler.initial
    MapHandler.initial_allConfigured
  refine ⟨s, hs, fun k => ?_⟩
  obtain ⟨c, hck⟩ := Option.isSome_iff_exists.mp (hc k)
  refine ⟨hc k, fun input => ?_, fun symbol => ⟨?_, ?_⟩⟩
  · simp [MapHandler.parse, hck]
  · simp [MapHandler.lookup, hck]
  · simp [MapHandler.contains, hck]

/-- Witness for C8: with an empty inherited base, the instance bag holds
`cd = "mathmlkeys"`, and after mutating a sibling instance's `isChars` the
untouched instance still reports `isChars = true`. -/
theorem C8_annotation_instance_bag_witness :
    getProp (mkAnnotationNode []).properties "cd" =
      some (PropValue.str "mathmlkeys")
    ∧ getProp (NodeWorld.setOnFirst
        ⟨mkAnnotationNode [], mkAnnotationNode []⟩ "isChars"
        (PropValue.bool false)).inst2.properties "isChars" =
      some (PropValue.bool true) := by
  have h := C8_annotation_instance_bag []
  refine ⟨h.1.2.2.1, ?_⟩
  rw [(h.2 "isChars" (PropValue.bool false)).1]
  exact h.1.2.2.2.2.2

/-- Witness for C10: a concrete run — register, reconfigure, append — ends
in a state whose character category has a configuration present. -/
theorem C10_all_categories_configured_witness :
    ∃ s, HandlerOp.run (MapHandler.initial : MapHandler Nat Nat Nat Nat)
      [HandlerOp.reg mValue,
       HandlerOp.conf (HandlerConfig.only Configurations.character ["value"]),
       HandlerOp.app (HandlerConfig.only Configurations.mcr ["value"])]
      = some s
    ∧ (assocGet s.configurations Configurations.character).isSome = true := by
  obtain ⟨s, hs, hc⟩ := C10_all_categories_configured
    [HandlerOp.reg mValue,
     HandlerOp.conf (HandlerConfig.only Configurations.character ["value"]),
     HandlerOp.app (HandlerConfig.only Configurations.mcr ["value"])]
  exact ⟨s, hs, (hc Configurations.character).1⟩
